import Mathlib

set_option autoImplicit false
set_option maxRecDepth 4000

/-!
Shallow embedding of the width-constrained type renderer of this
repository (src/types.rs): paths, path segments, generic-argument
lists, where-clause predicates, trait bounds and higher-ranked trait
references.

Rust renderers return Option String.  The model returns RRes, which
keeps the None outcome (budget exhausted) apart from a process abort:
a panicking .unwrap() on a None, the unreachable! at the end of
get_path_separator, or an unchecked usize subtraction that underflows
(which panics in an overflow-checked build and wraps otherwise; either
way it does not produce a None).

External collaborators that live in this repository but outside src/
(utils::extra_offset, utils::span_after, the list layout engine of
lists.rs, the plain stringifiers of pprust) are modelled from the
specification; each such definition carries a doc comment starting
with "Modelled from the spec:".  The source buffer is a list of
characters and spans are byte offsets into it; the plain stringifier
output of a leaf node is stored in the node itself as a text field.
-/

namespace Rustfmt

/-- Outcome of one rendering call: success, the Rust None (budget
exhausted), or a process abort (panic / unreachable). -/
inductive RRes (α : Type) where
  | ok : α → RRes α
  | nofit : RRes α
  | abort : RRes α
  deriving DecidableEq

/-- Sequencing of fallible renders; models both ? on Option and the
try_opt! macro: None and panics propagate. -/
def RRes.bind {α β : Type} : RRes α → (α → RRes β) → RRes β
  | RRes.ok a, f => f a
  | RRes.nofit, _ => RRes.nofit
  | RRes.abort, _ => RRes.abort

/-- Rust try_opt!(a.checked_sub(b)): underflow is the None outcome. -/
def checkedSub (a b : Nat) : RRes Nat :=
  if b ≤ a then RRes.ok (a - b) else RRes.nofit

/-- Rust unchecked usize subtraction a - b: underflow aborts
(panic in an overflow-checked build). -/
def subUnchecked (a b : Nat) : RRes Nat :=
  if b ≤ a then RRes.ok (a - b) else RRes.abort

/-- Rust Option::unwrap: a None aborts the process. -/
def unwrapOpt {α : Type} : Option α → RRes α
  | Option.some a => RRes.ok a
  | Option.none => RRes.abort

/-- Collects the results of a mapped closure of the shape
.map(|x| render(x).unwrap()): the first non-ok element aborts. -/
def collectUnwrap : List (RRes String) → RRes (List String)
  | [] => RRes.ok []
  | r :: rest =>
      match r with
      | RRes.ok s => (collectUnwrap rest).bind (fun ss => RRes.ok (s :: ss))
      | _ => RRes.abort

/-- ast::Lifetime; text is the pprust::lifetime_to_string output, and
lo, hi delimit its span in the source buffer. -/
structure Lifetime where
  text : String
  lo : Nat
  hi : Nat
  deriving DecidableEq

/-- ast::Ty; text is the pprust::ty_to_string output. -/
structure Ty where
  text : String
  lo : Nat
  hi : Nat
  deriving DecidableEq

/-- ast::TypeBinding (an associated-type binding ident = ty). -/
structure TypeBinding where
  ident : String
  ty : Ty
  lo : Nat
  hi : Nat
  deriving DecidableEq

/-- types.rs lines 111 to 115: the three kinds of angle-bracket items. -/
inductive SegmentParam where
  | lifeTime : Lifetime → SegmentParam
  | type : Ty → SegmentParam
  | binding : TypeBinding → SegmentParam
  deriving DecidableEq

/-- types.rs lines 117 to 125: get_span of a SegmentParam; only the hi
end is consumed by the model. -/
def SegmentParam.spanHi : SegmentParam → Nat
  | SegmentParam.lifeTime lt => lt.hi
  | SegmentParam.type t => t.hi
  | SegmentParam.binding b => b.hi

/-- types.rs lines 127 to 141: the Display impl of SegmentParam. -/
def SegmentParam.toString : SegmentParam → String
  | SegmentParam.lifeTime lt => lt.text
  | SegmentParam.type t => t.text
  | SegmentParam.binding b => (b.ident ++ " = ") ++ b.ty.text

/-- ast::PathParameters.  In this AST, absent parameters are the
angle-bracketed form with all three lists empty. -/
inductive PathParameters where
  | angleBracketed : List Lifetime → List Ty → List TypeBinding → PathParameters
  | parenthesized : List Ty → Option Ty → PathParameters
  deriving DecidableEq

/-- ast::PathSegment. -/
structure PathSegment where
  identifier : String
  parameters : PathParameters
  deriving DecidableEq

/-- ast::Path with its span. -/
structure Path where
  global : Bool
  segments : List PathSegment
  lo : Nat
  hi : Nat
  deriving DecidableEq

/-- ast::QSelf: the qualifying type and the count of leading segments
that belong to the qualification. -/
structure QSelf where
  ty : Ty
  position : Nat
  deriving DecidableEq

/-- ast::TraitRef. -/
structure TraitRef where
  path : Path
  deriving DecidableEq

/-- ast::LifetimeDef: a lifetime with its declared bounds. -/
structure LifetimeDef where
  lifetime : Lifetime
  bounds : List Lifetime
  deriving DecidableEq

/-- ast::PolyTraitRef: optional higher-ranked binders plus a trait
reference. -/
structure PolyTraitRef where
  bound_lifetimes : List LifetimeDef
  trait_ref : TraitRef
  deriving DecidableEq

/-- ast::TraitBoundModifier. -/
inductive TraitBoundModifier where
  | None : TraitBoundModifier
  | Maybe : TraitBoundModifier
  deriving DecidableEq

/-- ast::TyParamBound. -/
inductive TyParamBound where
  | traitTyParamBound : PolyTraitRef → TraitBoundModifier → TyParamBound
  | regionTyParamBound : Lifetime → TyParamBound
  deriving DecidableEq

/-- ast::WherePredicate (bound, region, equality). -/
inductive WherePredicate where
  | boundPredicate : List LifetimeDef → Ty → List TyParamBound → WherePredicate
  | regionPredicate : Lifetime → List Lifetime → WherePredicate
  | eqPredicate : Path → Ty → WherePredicate
  deriving DecidableEq

/-- ast::TyParam: a declared type parameter. -/
structure TyParam where
  ident : String
  bounds : List TyParamBound
  default : Option Ty
  deriving DecidableEq

/-- Modelled from the spec: utils::extra_offset (utils.rs is not under
src/): the length of the text already emitted on the current output
line, relative to the starting column; text without a newline
contributes its full length, a newline resets the count. -/
def extra_offset (text : String) (offset : Nat) : Nat :=
  if '\n' ∈ text.data then
    (text.data.reverse.takeWhile (fun c => c ≠ '\n')).length - offset
  else text.length

/-- Modelled from the spec: utils::span_after (utils.rs is not under
src/): the Source-Text Locator's first occurrence of the token inside
the span lo..hi, returned as the position one past the token; a span
without the token makes the unwrap in the source panic. -/
def span_after (cm : List Char) (lo hi : Nat) (needle : Char) : RRes Nat :=
  match ((cm.take hi).drop lo).findIdx? (fun c => c = needle) with
  | Option.some i => RRes.ok (lo + i + 1)
  | Option.none => RRes.abort

/-- Modelled from the spec: the List Layout Engine
(lists::itemize_list and lists::write_list; lists.rs is not under
src/).  The pre-rendered items are joined on one line with
separator-plus-space when that fits in the horizontal width, and are
otherwise laid out one per line at the given indent.  Comment
extraction inside itemize_list is out of scope; the item texts are
produced, in order, by the to-string function the caller supplies. -/
def write_list (items : List String) (sep : String) (indent hWidth : Nat) : String :=
  let oneLine := String.intercalate (sep ++ " ") items
  if oneLine.length ≤ hWidth then oneLine
  else String.intercalate ((sep ++ "\n") ++ String.mk (List.replicate indent ' ')) items

/-- types.rs lines 156 to 164: the backward scan of
get_path_separator over the reversed snippet characters; falling off
the end reaches the unreachable! of line 166, an abort. -/
def get_path_separator_scan : List Char → RRes String
  | [] => RRes.abort
  | c :: rest =>
      if c = ':' then RRes.ok "::"
      else if c.isWhitespace || c == '<' then get_path_separator_scan rest
      else RRes.ok ""

/-- types.rs lines 149 to 167: infer the separator that preceded a
generic-argument list from the raw source text between path_start and
segment_start. -/
def get_path_separator (cm : List Char) (pathStart segmentStart : Nat) : RRes String :=
  get_path_separator_scan (((cm.take segmentStart).drop pathStart).reverse)

/-- types.rs lines 194 to 200: the angle-bracket item list of one
segment, lifetimes first, then types, then bindings. -/
def segment_param_list (lifetimes : List Lifetime) (types : List Ty)
    (bindings : List TypeBinding) : List SegmentParam :=
  (lifetimes.map SegmentParam.lifeTime ++ types.map SegmentParam.type)
    ++ bindings.map SegmentParam.binding

/-- types.rs lines 179 to 278: rewrite_segment.  The mutable span
cursor is modelled by taking the current position and returning the
updated one next to the rendered text.  The Rust match guard sends the
empty angle-bracketed form (absent parameters) to the default arm. -/
def rewrite_segment (segment : PathSegment) (spanLo spanHi : Nat) (cm : List Char)
    (width offset : Nat) : RRes (String × Nat) :=
  (checkedSub width segment.identifier.length).bind (fun width2 =>
    let offset2 := offset + segment.identifier.length
    match segment.parameters with
    | PathParameters.angleBracketed lifetimes types bindings =>
        if lifetimes.length > 0 ∨ types.length > 0 ∨ bindings.length > 0 then
          let paramList := segment_param_list lifetimes types bindings
          (unwrapOpt paramList.getLast?).bind (fun lastParam =>
            let nextSpanLo := lastParam.spanHi + 1
            (span_after cm spanLo spanHi '<').bind (fun listLo =>
              (get_path_separator cm spanLo listLo).bind (fun separator =>
                let items := paramList.map SegmentParam.toString
                -- 1 for the opening bracket, plus the separator; 1 more
                -- for the closing bracket
                let extraOff := 1 + separator.length
                (checkedSub width2 (extraOff + 1)).bind (fun listWidth =>
                  let params := ((separator ++ "<")
                    ++ write_list items "," (offset2 + extraOff) listWidth) ++ ">"
                  RRes.ok (segment.identifier ++ params, nextSpanLo)))))
        else RRes.ok (segment.identifier ++ "", spanLo)
    | PathParameters.parenthesized inputs output =>
        let outputStr := match output with
          | Option.some ty => " -> " ++ ty.text
          | Option.none => ""
        (span_after cm spanLo spanHi '(').bind (fun _ =>
          let items := inputs.map Ty.text
          -- 2 for the parentheses
          (checkedSub width2 (outputStr.length + 2)).bind (fun budget =>
            (unwrapOpt inputs.getLast?).bind (fun lastInput =>
              let params := (("(" ++ write_list items "," (offset2 + 1) budget) ++ ")")
                ++ outputStr
              RRes.ok (segment.identifier ++ params, lastInput.hi + 1)))))

/-- types.rs lines 86 to 106: the segment loop of
rewrite_path_segments, threading the buffer and the span cursor. -/
def rewrite_path_segments_loop (first : Bool) (buffer : String)
    (segments : List PathSegment) (spanLo spanHi : Nat) (cm : List Char)
    (width offset : Nat) : RRes String :=
  match segments with
  | [] => RRes.ok buffer
  | seg :: rest =>
      let eo := extra_offset buffer offset
      (checkedSub width eo).bind (fun remainingWidth =>
        (rewrite_segment seg spanLo spanHi cm remainingWidth (offset + eo)).bind (fun r =>
          let buffer2 := if first then buffer ++ r.1 else (buffer ++ "::") ++ r.1
          rewrite_path_segments_loop false buffer2 rest r.2 spanHi cm width offset))

/-- types.rs lines 76 to 109: rewrite_path_segments. -/
def rewrite_path_segments (buffer : String) (segments : List PathSegment)
    (spanLo spanHi : Nat) (cm : List Char) (width offset : Nat) : RRes String :=
  rewrite_path_segments_loop true buffer segments spanLo spanHi cm width offset

/-- types.rs lines 65 to 73: the common tail of rewrite_path that
renders the remaining segments after the optional qualified self. -/
def rewrite_path_rest (result : String) (segs : List PathSegment)
    (spanLo spanHi : Nat) (cm : List Char) (width offset : Nat) : RRes String :=
  let eo := extra_offset result offset
  (checkedSub width eo).bind (fun budget =>
    rewrite_path_segments result segs spanLo spanHi cm budget (offset + eo))

/-- types.rs lines 28 to 74: rewrite_path.  In the qualified-self arm,
3 is the length of the closing token and the subtraction of 3 is the
unchecked one of line 51; skip_count is the qualified-self position. -/
def rewrite_path (cm : List Char) (qself : Option QSelf) (path : Path)
    (width offset : Nat) : RRes String :=
  let result := if path.global then "::" else ""
  match qself with
  | Option.some qs =>
      let result2 := ((result ++ "<") ++ qs.ty.text) ++ " as "
      let eo := extra_offset result2 offset
      (checkedSub width eo).bind (fun w1 =>
        (subUnchecked w1 3).bind (fun budget =>
          (rewrite_path_segments result2 (path.segments.take qs.position)
              path.lo path.hi cm budget (offset + eo)).bind (fun r =>
            rewrite_path_rest (r ++ ">::") (path.segments.drop qs.position)
              (qs.ty.hi + 1) path.hi cm width offset)))
  | Option.none =>
      rewrite_path_rest result (path.segments.drop 0) path.lo path.hi cm width offset

/-- types.rs lines 21 to 25: the Rewrite impl of ast::Path. -/
def Path.rewrite (p : Path) (cm : List Char) (width offset : Nat) : RRes String :=
  rewrite_path cm Option.none p width offset

/-- The text the LifetimeDef Rewrite impl produces
(types.rs lines 339 to 350). -/
def LifetimeDef.rewriteStr (l : LifetimeDef) : String :=
  if l.bounds.length = 0 then l.lifetime.text
  else (l.lifetime.text ++ ": ") ++ String.intercalate " + " (l.bounds.map Lifetime.text)

/-- types.rs lines 339 to 350: the Rewrite impl of ast::LifetimeDef;
it ignores the context, the width and the offset and never fails. -/
def LifetimeDef.rewrite (l : LifetimeDef) (_cm : List Char) (_width _offset : Nat) :
    RRes String :=
  RRes.ok l.rewriteStr

/-- types.rs lines 392 to 410: the Rewrite impl of ast::PolyTraitRef;
6 is the length of the binder wrapper text. -/
def PolyTraitRef.rewrite (p : PolyTraitRef) (cm : List Char) (width offset : Nat) :
    RRes String :=
  if p.bound_lifetimes.length > 0 then
    (collectUnwrap (p.bound_lifetimes.map (fun lt => lt.rewrite cm width offset))).bind
      (fun lstrs =>
        let lifetimeStr := String.intercalate ", " lstrs
        let extraOff := lifetimeStr.length + 6
        (checkedSub width extraOff).bind (fun maxPathWidth =>
          (p.trait_ref.path.rewrite cm maxPathWidth (offset + extraOff)).bind
            (fun pathStr =>
              RRes.ok ((("for<" ++ lifetimeStr) ++ "> ") ++ pathStr))))
  else
    p.trait_ref.path.rewrite cm width offset

/-- types.rs lines 352 to 366: the Rewrite impl of ast::TyParamBound;
the Maybe arm performs the unchecked subtraction width - 1 of
line 359 before rendering the reference. -/
def TyParamBound.rewrite (b : TyParamBound) (cm : List Char) (width offset : Nat) :
    RRes String :=
  match b with
  | TyParamBound.traitTyParamBound tref TraitBoundModifier.None =>
      tref.rewrite cm width offset
  | TyParamBound.traitTyParamBound tref TraitBoundModifier.Maybe =>
      (subUnchecked width 1).bind (fun w2 =>
        (tref.rewrite cm w2 (offset + 1)).bind (fun s => RRes.ok ("?" ++ s)))
  | TyParamBound.regionTyParamBound l => RRes.ok l.text

/-- types.rs lines 280 to 337: the Rewrite impl of
ast::WherePredicate.  The bound renders inside the map closures carry
the .unwrap() of lines 300, 312 (modelled by collectUnwrap) and the
unchecked subtraction width - used_width of lines 298, 310; the
equality arm performs the unchecked subtraction of line 331 and
propagates a path-render failure through try_opt!. -/
def WherePredicate.rewrite (p : WherePredicate) (cm : List Char) (width offset : Nat) :
    RRes String :=
  match p with
  | WherePredicate.boundPredicate bound_lifetimes bounded_ty bounds =>
      if bound_lifetimes.length > 0 then
        (collectUnwrap (bound_lifetimes.map (fun lt => lt.rewrite cm width offset))).bind
          (fun lstrs =>
            let lifetimeStr := String.intercalate ", " lstrs
            let typeStr := bounded_ty.text
            -- 8 is the length of the binder wrapper plus the colon text
            let usedWidth := (lifetimeStr.length + typeStr.length) + 8
            (collectUnwrap (bounds.map (fun b =>
                (subUnchecked width usedWidth).bind (fun bw =>
                  b.rewrite cm bw (offset + usedWidth))))).bind
              (fun bstrs =>
                RRes.ok ((((("for<" ++ lifetimeStr) ++ "> ") ++ typeStr) ++ ": ")
                  ++ String.intercalate " + " bstrs)))
      else
        let typeStr := bounded_ty.text
        -- 2 is the length of the colon-space text
        let usedWidth := typeStr.length + 2
        (collectUnwrap (bounds.map (fun b =>
            (subUnchecked width usedWidth).bind (fun bw =>
              b.rewrite cm bw (offset + usedWidth))))).bind
          (fun bstrs =>
            RRes.ok ((typeStr ++ ": ") ++ String.intercalate " + " bstrs))
  | WherePredicate.regionPredicate lifetime bounds =>
      RRes.ok ((lifetime.text ++ ": ")
        ++ String.intercalate " + " (bounds.map Lifetime.text))
  | WherePredicate.eqPredicate path ty =>
      let tyStr := ty.text
      -- 3 is the length of the equals text
      let usedWidth := 3 + tyStr.length
      (subUnchecked width usedWidth).bind (fun pw =>
        (path.rewrite cm pw (offset + usedWidth)).bind (fun pathStr =>
          RRes.ok ((pathStr ++ " = ") ++ tyStr)))

/-- types.rs lines 369 to 389: the Rewrite impl of ast::TyParam.  The
bounds are rendered with the full, unreduced width and carry the
.unwrap() of line 377; the default type is appended plainly. -/
def TyParam.rewrite (tp : TyParam) (cm : List Char) (width offset : Nat) : RRes String :=
  let result := tp.ident
  (if tp.bounds.length > 0 then
      (collectUnwrap (tp.bounds.map (fun b => b.rewrite cm width offset))).bind
        (fun bstrs => RRes.ok ((result ++ ": ") ++ String.intercalate " + " bstrs))
    else RRes.ok result).bind
    (fun result2 =>
      match tp.default with
      | Option.some d => RRes.ok ((result2 ++ " = ") ++ d.text)
      | Option.none => RRes.ok result2)

theorem data_append (a b : String) : (a ++ b).data = a.data ++ b.data := by
  cases a
  cases b
  rfl

theorem not_mem_data_append {c : Char} (a b : String)
    (ha : c ∉ a.data) (hb : c ∉ b.data) : c ∉ (a ++ b).data := by
  rw [data_append]
  intro hmem
  rcases List.mem_append.mp hmem with h | h
  · exact ha h
  · exact hb h

theorem str_append_nil (s : String) : s ++ "" = s := by
  cases s with
  | mk d =>
      show String.mk (d ++ []) = String.mk d
      rw [List.append_nil]

theorem extra_offset_of_not_mem (text : String) (offset : Nat)
    (h : '\n' ∉ text.data) : extra_offset text offset = text.length := by
  rw [extra_offset, if_neg h]

theorem scan_ok_of_dropWhile (cs : List Char) (c : Char) (rest : List Char)
    (h : cs.dropWhile (fun c => c.isWhitespace || c == '<') = c :: rest) :
    get_path_separator_scan cs = RRes.ok (if c = ':' then "::" else "") := by
  induction cs with
  | nil => simp [List.dropWhile] at h
  | cons a t ih =>
      by_cases hpa : (a.isWhitespace || a == '<') = true
      · simp only [List.dropWhile, hpa] at h
        have hne : ¬ a = ':' := by
          intro hq
          subst hq
          exact absurd hpa (by decide)
        simp only [get_path_separator_scan]
        rw [if_neg hne, if_pos hpa]
        exact ih h
      · have hpaf : (a.isWhitespace || a == '<') = false := by
          rw [← Bool.not_eq_true]
          exact hpa
        simp only [List.dropWhile, hpaf] at h
        injection h with hc hr
        subst hc
        simp only [get_path_separator_scan]
        by_cases hq : a = ':'
        · rw [if_pos hq, if_pos hq]
        · rw [if_neg hq, if_neg hpa, if_neg hq]

theorem scan_abort_of_all (cs : List Char)
    (h : ∀ c ∈ cs, (c.isWhitespace || c == '<') = true) :
    get_path_separator_scan cs = RRes.abort := by
  induction cs with
  | nil => rfl
  | cons a t ih =>
      have hpa := h a (List.mem_cons_self a t)
      have hne : ¬ a = ':' := by
        intro hq
        subst hq
        exact absurd hpa (by decide)
      simp only [get_path_separator_scan]
      rw [if_neg hne, if_pos hpa]
      exact ih (fun c hc => h c (List.mem_cons_of_mem a hc))

theorem scan_ok_of_exists (cs : List Char)
    (h : ∃ c ∈ cs, (c.isWhitespace || c == '<') = false) :
    ∃ s, get_path_separator_scan cs = RRes.ok s := by
  induction cs with
  | nil => simp at h
  | cons a t ih =>
      by_cases hq : a = ':'
      · refine ⟨"::", ?_⟩
        simp only [get_path_separator_scan]
        rw [if_pos hq]
      · by_cases hpa : (a.isWhitespace || a == '<') = true
        · have ht : ∃ c ∈ t, (c.isWhitespace || c == '<') = false := by
            obtain ⟨c, hc, hcf⟩ := h
            rcases List.mem_cons.mp hc with rfl | hct
            · simp [hpa] at hcf
            · exact ⟨c, hct, hcf⟩
          obtain ⟨s, hs⟩ := ih ht
          refine ⟨s, ?_⟩
          simp only [get_path_separator_scan]
          rw [if_neg hq, if_pos hpa]
          exact hs
        · refine ⟨"", ?_⟩
          simp only [get_path_separator_scan]
          rw [if_neg hq, if_neg hpa]

theorem collectUnwrap_lifetime_defs (ls : List LifetimeDef) (cm : List Char)
    (w o : Nat) :
    collectUnwrap (ls.map (fun lt => lt.rewrite cm w o))
      = RRes.ok (ls.map LifetimeDef.rewriteStr) := by
  induction ls with
  | nil => rfl
  | cons a t ih =>
      simp only [List.map_cons, LifetimeDef.rewrite, collectUnwrap] at ih ⊢
      rw [ih]
      rfl

/-- C4: the separator preceding a generic-argument list is inferred by
scanning the raw source span backward, skipping whitespace and the
opening bracket: a colon as first other character yields the double
colon, anything else yields the empty separator; consequently the
expression-position source Foo::<A, B> re-renders with its leading
double colon and the item-position source Foo<A, B> re-renders
without one. -/
theorem C4_separator_inference (cm : List Char) (lo hi : Nat) (c : Char)
    (rest : List Char)
    (h : ((cm.take hi).drop lo).reverse.dropWhile
        (fun c => c.isWhitespace || c == '<') = c :: rest) :
    get_path_separator cm lo hi = RRes.ok (if c = ':' then "::" else "") ∧
    rewrite_segment
        (PathSegment.mk "Foo"
          (PathParameters.angleBracketed [] [Ty.mk "A" 6 7, Ty.mk "B" 9 10] []))
        0 11 ("Foo::<A, B>".data) 20 0
      = RRes.ok ("Foo::<A, B>", 11) ∧
    rewrite_segment
        (PathSegment.mk "Foo"
          (PathParameters.angleBracketed [] [Ty.mk "A" 4 5, Ty.mk "B" 7 8] []))
        0 9 ("Foo<A, B>".data) 20 0
      = RRes.ok ("Foo<A, B>", 9) :=
  ⟨scan_ok_of_dropWhile _ c rest h, by decide, by decide⟩

/-- C4 witness: on the source Foo::<A, B>, scanning back from the
located opening bracket yields the double-colon separator. -/
theorem C4_witness : get_path_separator ("Foo::<A, B>".data) 0 6 = RRes.ok "::" := by
  have h := (C4_separator_inference ("Foo::<A, B>".data) 0 6 ':' [':', 'o', 'o', 'F']
    (by decide)).1
  exact h.trans (by decide)

/-- C5: a path segment reserves the identifier length from the width
before any argument-list rendering; a width smaller than the
identifier makes the segment render return None, with no truncation
and no partial text. -/
theorem C5_ident_reserved (segment : PathSegment) (spanLo spanHi : Nat)
    (cm : List Char) (width offset : Nat)
    (h : width < segment.identifier.length) :
    rewrite_segment segment spanLo spanHi cm width offset = RRes.nofit := by
  simp only [rewrite_segment, checkedSub]
  rw [if_neg (by omega)]
  rfl

/-- C5 witness: identifier Foo does not fit in width 2. -/
theorem C5_witness :
    rewrite_segment (PathSegment.mk "Foo" (PathParameters.angleBracketed [] [] []))
      0 0 [] 2 0 = RRes.nofit :=
  C5_ident_reserved (PathSegment.mk "Foo" (PathParameters.angleBracketed [] [] []))
    0 0 [] 2 0 (by decide)

/-- C9: a segment whose parameters are absent (the empty angle-bracket
form) leaves the span cursor unchanged and returns its identifier
exactly when the width is at least the identifier length. -/
theorem C9_plain_segment (segment : PathSegment) (spanLo spanHi : Nat)
    (cm : List Char) (width offset : Nat)
    (h : segment.parameters = PathParameters.angleBracketed [] [] []) :
    (segment.identifier.length ≤ width →
      rewrite_segment segment spanLo spanHi cm width offset
        = RRes.ok (segment.identifier, spanLo)) ∧
    (width < segment.identifier.length →
      rewrite_segment segment spanLo spanHi cm width offset = RRes.nofit) := by
  constructor
  · intro hw
    simp only [rewrite_segment, h, checkedSub]
    rw [if_pos hw]
    simp [RRes.bind, str_append_nil]
  · intro hw
    simp only [rewrite_segment, checkedSub]
    rw [if_neg (by omega)]
    rfl

/-- C9 witness: segment ab with absent parameters at width 2 renders
as its identifier and leaves the cursor at 5. -/
theorem C9_witness :
    rewrite_segment (PathSegment.mk "ab" (PathParameters.angleBracketed [] [] []))
      5 99 [] 2 0 = RRes.ok ("ab", 5) :=
  (C9_plain_segment (PathSegment.mk "ab" (PathParameters.angleBracketed [] [] []))
    5 99 [] 2 0 rfl).1 (by decide)

/-- C10: the separator-inference routine aborts (the unreachable of
the source) on a snippet consisting entirely of whitespace and opening
brackets, and produces a separator whenever some character of the
snippet is neither. -/
theorem C10_scan_totality (cm : List Char) (lo hi : Nat) :
    ((∀ c ∈ (cm.take hi).drop lo, (c.isWhitespace || c == '<') = true) →
      get_path_separator cm lo hi = RRes.abort) ∧
    ((∃ c ∈ (cm.take hi).drop lo, (c.isWhitespace || c == '<') = false) →
      ∃ s, get_path_separator cm lo hi = RRes.ok s) := by
  constructor
  · intro h
    exact scan_abort_of_all _ (fun c hc => h c (List.mem_reverse.mp hc))
  · intro h
    obtain ⟨c, hc, hcf⟩ := h
    exact scan_ok_of_exists _ ⟨c, List.mem_reverse.mpr hc, hcf⟩

/-- C10 witness: a snippet of one space and one opening bracket makes
the routine abort. -/
theorem C10_witness : get_path_separator (" <".data) 0 2 = RRes.abort :=
  (C10_scan_totality (" <".data) 0 2).1 (by decide)

/-- C1 counterexample: with type text T (length 1) and width 3 the
reservation 3 + 1 exceeds the width, and the equality-predicate
render aborts on the unchecked subtraction of the source instead of
returning the None the claim describes. -/
theorem C1_counterexample :
    (WherePredicate.eqPredicate (Path.mk false [] 0 0) (Ty.mk "T" 0 0)).rewrite [] 3 0
      = RRes.abort ∧
    (WherePredicate.eqPredicate (Path.mk false [] 0 0) (Ty.mk "T" 0 0)).rewrite [] 3 0
      ≠ RRes.nofit :=
  ⟨by decide, by decide⟩

/-- C1 (amended): the equality-predicate render reserves 3 plus the
type length; when the reservation fits, the path is rendered with the
remaining budget at the shifted offset and a failed path render makes
the whole render return None; when the reservation alone exceeds the
width, the unchecked subtraction aborts instead of returning None. -/
theorem C1_eq_predicate_amended (path : Path) (ty : Ty) (cm : List Char)
    (width offset : Nat) :
    (3 + ty.text.length ≤ width →
      (WherePredicate.eqPredicate path ty).rewrite cm width offset =
        (rewrite_path cm Option.none path (width - (3 + ty.text.length))
            (offset + (3 + ty.text.length))).bind
          (fun s => RRes.ok ((s ++ " = ") ++ ty.text))) ∧
    (width < 3 + ty.text.length →
      (WherePredicate.eqPredicate path ty).rewrite cm width offset = RRes.abort) := by
  constructor
  · intro h
    simp only [WherePredicate.rewrite, subUnchecked, Path.rewrite]
    rw [if_pos h]
    rfl
  · intro h
    simp only [WherePredicate.rewrite, subUnchecked]
    rw [if_neg (by omega)]
    rfl

/-- C1 witness: an empty path against type text T at width 10 renders
through the reserved budget. -/
theorem C1_witness :
    (WherePredicate.eqPredicate (Path.mk false [] 0 5) (Ty.mk "T" 0 0)).rewrite [] 10 0
      = RRes.ok " = T" := by
  have h := (C1_eq_predicate_amended (Path.mk false [] 0 5) (Ty.mk "T" 0 0) [] 10 0).1
    (by decide)
  exact h.trans (by decide)

/-- C2: a bound predicate whose single bound does not fit its budget
(type text T at width 10 leaves 7 for the 8-character trait name), and
a type parameter whose single bound does not fit the full width, both
abort on the unwrap of the source instead of returning the None the
claim describes. -/
theorem C2_bound_render_aborts :
    (WherePredicate.boundPredicate [] (Ty.mk "T" 0 1)
        [TyParamBound.traitTyParamBound
          (PolyTraitRef.mk [] (TraitRef.mk (Path.mk false
            [PathSegment.mk "Abcdefgh" (PathParameters.angleBracketed [] [] [])] 5 13)))
          TraitBoundModifier.None]).rewrite [] 10 0 = RRes.abort ∧
    (TyParam.mk "X"
        [TyParamBound.traitTyParamBound
          (PolyTraitRef.mk [] (TraitRef.mk (Path.mk false
            [PathSegment.mk "Abcdefgh" (PathParameters.angleBracketed [] [] [])] 5 13)))
          TraitBoundModifier.None] Option.none).rewrite [] 7 0 = RRes.abort :=
  ⟨by decide, by decide⟩

/-- C3 counterexample: with qualifying type text T the emitted prefix
has length 6, and at width 6 the prefix is absorbed but the fixed
3-unit reservation for the closing token underflows the unchecked
subtraction, aborting instead of returning the None the claim
describes. -/
theorem C3_counterexample :
    rewrite_path [] (Option.some (QSelf.mk (Ty.mk "T" 1 2) 0)) (Path.mk false [] 0 10)
      6 0 = RRes.abort ∧
    rewrite_path [] (Option.some (QSelf.mk (Ty.mk "T" 1 2) 0)) (Path.mk false [] 0 10)
      6 0 ≠ RRes.nofit :=
  ⟨by decide, by decide⟩

/-- C3 (amended): with a qualified self, the leading segments receive
the width reduced by the emitted prefix length and by the fixed
3-unit reservation; a width below the prefix length yields None, but a
width that absorbs the prefix while leaving less than 3 units makes
the unchecked subtraction abort instead of returning None. -/
theorem C3_qself_amended (qs : QSelf) (path : Path) (cm : List Char)
    (width offset : Nat) (hnl : '\n' ∉ qs.ty.text.data) :
    (width < ((((if path.global then "::" else "") ++ "<") ++ qs.ty.text) ++ " as ").length →
      rewrite_path cm (Option.some qs) path width offset = RRes.nofit) ∧
    (((((if path.global then "::" else "") ++ "<") ++ qs.ty.text) ++ " as ").length ≤ width →
      width < ((((if path.global then "::" else "") ++ "<") ++ qs.ty.text) ++ " as ").length + 3 →
      rewrite_path cm (Option.some qs) path width offset = RRes.abort) ∧
    (((((if path.global then "::" else "") ++ "<") ++ qs.ty.text) ++ " as ").length + 3 ≤ width →
      rewrite_path cm (Option.some qs) path width offset =
        (rewrite_path_segments
            ((((if path.global then "::" else "") ++ "<") ++ qs.ty.text) ++ " as ")
            (path.segments.take qs.position) path.lo path.hi cm
            (width - (((((if path.global then "::" else "") ++ "<") ++ qs.ty.text) ++ " as ").length + 3))
            (offset + ((((if path.global then "::" else "") ++ "<") ++ qs.ty.text) ++ " as ").length)).bind
          (fun r => rewrite_path_rest (r ++ ">::") (path.segments.drop qs.position)
            (qs.ty.hi + 1) path.hi cm width offset)) := by
  have ha : '\n' ∉ ((if path.global then "::" else "") : String).data := by
    cases path.global <;> decide
  have hb := not_mem_data_append _ "<" ha (by decide)
  have hc := not_mem_data_append _ qs.ty.text hb hnl
  have hd := not_mem_data_append _ " as " hc (by decide)
  have heo := extra_offset_of_not_mem
    ((((if path.global then "::" else "") ++ "<") ++ qs.ty.text) ++ " as ") offset hd
  refine ⟨fun h1 => ?_, fun h2 h3 => ?_, fun h4 => ?_⟩
  · simp only [rewrite_path, heo, checkedSub]
    rw [if_neg (by omega)]
    rfl
  · simp only [rewrite_path, heo, checkedSub]
    rw [if_pos h2]
    simp only [RRes.bind, subUnchecked]
    rw [if_neg (by omega)]
  · simp only [rewrite_path, heo, checkedSub]
    rw [if_pos (by omega)]
    simp only [RRes.bind, subUnchecked]
    rw [if_pos (by omega)]
    simp only [RRes.bind, Nat.sub_sub]

/-- C3 witness: qualifying type T with one trailing segment Foo at
width 30 renders through the reduced budget. -/
theorem C3_witness :
    rewrite_path [] (Option.some (QSelf.mk (Ty.mk "T" 1 2) 0))
      (Path.mk false [PathSegment.mk "Foo" (PathParameters.angleBracketed [] [] [])] 0 10)
      30 0 = RRes.ok "<T as >::Foo" := by
  have h := (C3_qself_amended (QSelf.mk (Ty.mk "T" 1 2) 0)
    (Path.mk false [PathSegment.mk "Foo" (PathParameters.angleBracketed [] [] [])] 0 10)
    [] 30 0 (by decide)).2.2 (by decide)
  exact h.trans (by decide)

/-- C6: the item list of a segment is the lifetimes, then the types,
then the bindings, each group in input order; concretely, a segment
with one lifetime, one type and one binding renders its arguments in
that fixed order. -/
theorem C6_argument_order :
    (∀ (ls : List Lifetime) (ts : List Ty) (bs : List TypeBinding),
      (segment_param_list ls ts bs).map SegmentParam.toString =
        (ls.map (fun l => l.text) ++ ts.map (fun t => t.text))
          ++ bs.map (fun b => (b.ident ++ " = ") ++ b.ty.text)) ∧
    rewrite_segment
        (PathSegment.mk "S" (PathParameters.angleBracketed
          [Lifetime.mk "\x27a" 2 4] [Ty.mk "T" 6 7]
          [TypeBinding.mk "Item" (Ty.mk "U" 16 17) 9 17]))
        0 18 ("S<\x27a, T, Item = U>".data) 30 0
      = RRes.ok ("S<\x27a, T, Item = U>", 18) := by
  constructor
  · intro ls ts bs
    simp [segment_param_list, SegmentParam.toString, List.map_map, Function.comp_def]
  · decide

/-- C7: a plain trait bound renders its reference directly; a relaxed
bound prepends the question mark and renders the reference with the
width reduced by exactly one at an offset one further; a pure-lifetime
bound is stringified directly at every width, including zero. -/
theorem C7_trait_bound (tref : PolyTraitRef) (l : Lifetime) (cm : List Char)
    (width offset : Nat) :
    (TyParamBound.traitTyParamBound tref TraitBoundModifier.None).rewrite cm width offset
      = tref.rewrite cm width offset ∧
    (1 ≤ width →
      (TyParamBound.traitTyParamBound tref TraitBoundModifier.Maybe).rewrite cm width offset
        = (tref.rewrite cm (width - 1) (offset + 1)).bind (fun s => RRes.ok ("?" ++ s))) ∧
    (∀ w o : Nat, (TyParamBound.regionTyParamBound l).rewrite cm w o = RRes.ok l.text) := by
  refine ⟨rfl, fun h => ?_, fun w o => rfl⟩
  simp only [TyParamBound.rewrite, subUnchecked]
  rw [if_pos h]
  rfl

/-- C7 witness: a relaxed bound over the one-segment path A at width 3
renders with a leading question mark. -/
theorem C7_witness :
    (TyParamBound.traitTyParamBound
        (PolyTraitRef.mk [] (TraitRef.mk (Path.mk false
          [PathSegment.mk "A" (PathParameters.angleBracketed [] [] [])] 0 1)))
        TraitBoundModifier.Maybe).rewrite [] 3 0 = RRes.ok "?A" := by
  have h := (C7_trait_bound
    (PolyTraitRef.mk [] (TraitRef.mk (Path.mk false
      [PathSegment.mk "A" (PathParameters.angleBracketed [] [] [])] 0 1)))
    (Lifetime.mk "x" 0 0) [] 3 0).2.1 (by decide)
  exact h.trans (by decide)

/-- C8: a higher-ranked trait reference with binders reserves 6 plus
the joined binder text length, returns None when that reservation
underflows the width, and otherwise renders the path with the
remaining width at the shifted offset wrapped in the binder text; with
no binders the path is rendered directly with the unchanged width and
offset. -/
theorem C8_poly_trait_ref (p : PolyTraitRef) (cm : List Char) (width offset : Nat) :
    (p.bound_lifetimes ≠ [] →
      ((width < (String.intercalate ", "
            (p.bound_lifetimes.map LifetimeDef.rewriteStr)).length + 6 →
        p.rewrite cm width offset = RRes.nofit) ∧
       ((String.intercalate ", "
            (p.bound_lifetimes.map LifetimeDef.rewriteStr)).length + 6 ≤ width →
        p.rewrite cm width offset =
          (rewrite_path cm Option.none p.trait_ref.path
              (width - ((String.intercalate ", "
                (p.bound_lifetimes.map LifetimeDef.rewriteStr)).length + 6))
              (offset + ((String.intercalate ", "
                (p.bound_lifetimes.map LifetimeDef.rewriteStr)).length + 6))).bind
            (fun s => RRes.ok ((("for<" ++ String.intercalate ", "
              (p.bound_lifetimes.map LifetimeDef.rewriteStr)) ++ "> ") ++ s))))) ∧
    (p.bound_lifetimes = [] →
      p.rewrite cm width offset
        = rewrite_path cm Option.none p.trait_ref.path width offset) := by
  constructor
  · intro hne
    have hlen : p.bound_lifetimes.length > 0 := List.length_pos.mpr hne
    have hcol := collectUnwrap_lifetime_defs p.bound_lifetimes cm width offset
    constructor
    · intro hw
      simp only [PolyTraitRef.rewrite]
      rw [if_pos hlen]
      simp only [hcol, RRes.bind, checkedSub, Path.rewrite]
      rw [if_neg (by omega)]
    · intro hw
      simp only [PolyTraitRef.rewrite]
      rw [if_pos hlen]
      simp only [hcol, RRes.bind, checkedSub, Path.rewrite]
      rw [if_pos hw]
  · intro he
    have hno : ¬ p.bound_lifetimes.length > 0 := by simp [he]
    simp only [PolyTraitRef.rewrite]
    rw [if_neg hno]
    rfl

/-- C8 witness: one binder over the one-segment path A at width 20
renders wrapped in the binder text. -/
theorem C8_witness :
    (PolyTraitRef.mk [LifetimeDef.mk (Lifetime.mk "\x27a" 0 2) []]
        (TraitRef.mk (Path.mk false
          [PathSegment.mk "A" (PathParameters.angleBracketed [] [] [])] 0 1))).rewrite
      [] 20 0 = RRes.ok "for<\x27a> A" := by
  have h := ((C8_poly_trait_ref
    (PolyTraitRef.mk [LifetimeDef.mk (Lifetime.mk "\x27a" 0 2) []]
      (TraitRef.mk (Path.mk false
        [PathSegment.mk "A" (PathParameters.angleBracketed [] [] [])] 0 1)))
    [] 20 0).1 (by decide)).2 (by decide)
  exact h.trans (by decide)

end Rustfmt
